import Mathlib

/-
Shallow embedding of the nsqd broker core (topic.go, nsqd.go) for checking
the natural-language specification against the code.

Machine bytes are modelled as `Nat` (each < 256 where it matters), byte
strings as `List Nat`, and Go `chan`/map state as explicit record fields.
Components of the repository that live outside the provided sources
(message.go, channel.go, guid.go) are modelled from the spec and marked as
such in their doc comments.
-/

namespace NSQ

/-- Modelled from the spec: the Message record (message.go is not among the
sources) — a 16-byte id, an opaque body, a creation timestamp in
nanoseconds, a 16-bit delivery attempt counter and a nanosecond defer
delay (0 = immediate). The id is modelled as a single `Nat` below `2^128`. -/
structure Message where
  id : Nat
  body : List Nat
  timestamp : Int
  attempts : Nat
  deferred : Int
  deriving DecidableEq, Repr

/-- Modelled from the spec: `NewMessage(id, body)` allocates a fresh message
carrying the given id and body, the current time as its timestamp, and zero
attempts and defer. The current time is passed explicitly as `now`. -/
def NewMessage (id : Nat) (body : List Nat) (now : Int) : Message :=
  { id := id, body := body, timestamp := now, attempts := 0, deferred := 0 }

/-- Delivery method the topic pump uses for one channel
(topic.go, messagePump): `PutMessageDeferred` for a non-zero defer,
`PutMessage` otherwise. -/
inductive PutKind where
  | putMessage
  | putMessageDeferred
  deriving DecidableEq, Repr

/-- One step of the fan-out loop of `Topic.messagePump` (topic.go:340-361):
the message instance handed to the channel at 0-based index `i` of the
snapshot slice, and the delivery method used for it. For `i = 0` the
original instance `msg` is reused; for `i > 0` a fresh copy is allocated
with `NewMessage` and its timestamp and defer fields are then copied over
from the original. -/
def fanOutDelivery (now : Int) (msg : Message) (i : Nat) : Message × PutKind :=
  let chanMsg : Message :=
    if i = 0 then msg
    else { NewMessage msg.id msg.body now with
             timestamp := msg.timestamp, deferred := msg.deferred }
  (chanMsg, if chanMsg.deferred ≠ 0 then .putMessageDeferred else .putMessage)

/-- The whole fan-out pass of `Topic.messagePump` over a snapshot of `k`
destination channels: the list of (message instance, delivery method)
pairs, one per channel in slice order. -/
def messagePumpFanOut (now : Int) (msg : Message) (k : Nat) : List (Message × PutKind) :=
  (List.range k).map (fanOutDelivery now msg)

/-- Big-endian byte rendering of `n` on `w` bytes (most significant first). -/
def beBytes (w : Nat) (n : Nat) : List Nat :=
  (List.range w).map (fun i => n / 256 ^ (w - 1 - i) % 256)

/-- Modelled from the spec: the wire framing `writeMessageToBackend` uses on
the spill path (message.go is not among the sources) — 8 bytes of
big-endian timestamp nanoseconds, 2 bytes of attempts, the 16-byte id,
then the body. -/
def encodeMessage (m : Message) : List Nat :=
  beBytes 8 ((m.timestamp % (2 ^ 64 : Nat)).toNat)
    ++ beBytes 2 (m.attempts % 2 ^ 16)
    ++ beBytes 16 m.id
    ++ m.body

/-- State of a `BackendQueue` (spec section 6): the frames durably stored, a
count of `Put` calls made so far (used to index the error oracle), and
closed/deleted flags. -/
structure BackendState where
  frames : List (List Nat)
  writeAttempts : Nat
  closed : Bool
  deleted : Bool
  deriving DecidableEq, Repr

/-- One `backend.Put(bytes)` call. Whether the durable write succeeds is
decided by the external disk, modelled by the oracle `bp` indexed by the
number of prior `Put` calls: `none` means success (the frame is appended),
`some e` means the write fails with error `e` and stores nothing. -/
def BackendState.putFrame (bp : Nat → Option String) (b : BackendState)
    (bytes : List Nat) : BackendState × Option String :=
  match bp b.writeAttempts with
  | none => ({ b with frames := b.frames ++ [bytes]
                      writeAttempts := b.writeAttempts + 1 }, none)
  | some e => ({ b with writeAttempts := b.writeAttempts + 1 }, some e)

/-- Modelled from the spec: the per-channel state the topic-level code
observes (channel.go is not among the sources) — only the closed flag is
needed by the topic operations under check. -/
structure ChannelState where
  closed : Bool
  deriving DecidableEq, Repr

/-- Modelled from the spec: `Channel.Close` flushes and closes the channel;
at the topic level only the closed flag is observable. -/
def ChannelState.Close (c : ChannelState) : ChannelState :=
  { c with closed := true }

/-- State of a `Topic` (topic.go): the exit flag, the bounded in-memory
message channel (capacity `memCap` = `MemQueueSize`) with its current
contents, the backend queue, the message counters, the channel registry,
the one-shot deletion latch (`deleter sync.Once` plus a count of callback
invocations, for observing C7), and whether `exitChan` has been closed.
The broker's health sentinel (`NSQD.errValue`, written by `SetHealth` in
nsqd.go:209-211) is carried here as `health` because `Topic.put` is its
only writer among the sources. -/
structure TopicState where
  exitFlag : Bool
  ephemeral : Bool
  memCap : Nat
  memChan : List Message
  backend : BackendState
  messageCount : Nat
  messageBytes : Nat
  health : Option String
  channelMap : List (String × ChannelState)
  deleterDone : Bool
  callbackCount : Nat
  exitChanClosed : Bool
  deriving DecidableEq, Repr

/-- The topic enqueue policy `Topic.put` (topic.go:235-254): a non-blocking
send to `memoryMsgChan` succeeds exactly when the bounded channel has free
capacity; otherwise the message is serialized (with a pooled buffer, not
observable here) and written to the backend, the write result is recorded
in the health sentinel via `SetHealth`, and a write error is returned. -/
def TopicState.put (bp : Nat → Option String) (t : TopicState) (m : Message) :
    TopicState × Option String :=
  if t.memChan.length < t.memCap then
    ({ t with memChan := t.memChan ++ [m] }, none)
  else
    let r := t.backend.putFrame bp (encodeMessage m)
    ({ t with backend := r.1, health := r.2 }, r.2)

/-- Function `Topic.PutMessage` (topic.go:189-206): fails with "exiting" while the
exit flag is set; otherwise delegates to `put` and on success bumps
`messageCount` by one and `messageBytes` by the body length. -/
def TopicState.PutMessage (bp : Nat → Option String) (t : TopicState)
    (m : Message) : TopicState × Option String :=
  if t.exitFlag then (t, some "exiting")
  else
    let r := t.put bp m
    match r.2 with
    | some e => (r.1, some e)
    | none => ({ r.1 with messageCount := r.1.messageCount + 1
                          messageBytes := r.1.messageBytes + m.body.length }, none)

/-- The loop body of `Topic.PutMessages` (topic.go:218-229): `i` is the
0-based index of the next message and `totalBytes` the accumulated body
bytes of the messages already enqueued. On a `put` error the counters are
bumped by `i` and `totalBytes` and the error returned; after a full pass
they are bumped by the batch length and the total body bytes. -/
def putMessagesLoop (bp : Nat → Option String) (t : TopicState) :
    List Message → Nat → Nat → TopicState × Option String
  | [], i, totalBytes =>
      ({ t with messageCount := t.messageCount + i
                messageBytes := t.messageBytes + totalBytes }, none)
  | m :: rest, i, totalBytes =>
      let r := t.put bp m
      match r.2 with
      | some e =>
          ({ r.1 with messageCount := r.1.messageCount + i
                      messageBytes := r.1.messageBytes + totalBytes }, some e)
      | none => putMessagesLoop bp r.1 rest (i + 1) (totalBytes + m.body.length)

/-- Function `Topic.PutMessages` (topic.go:209-231): fails with "exiting" while the
exit flag is set, otherwise runs the batch loop from index 0. -/
def TopicState.PutMessages (bp : Nat → Option String) (t : TopicState)
    (msgs : List Message) : TopicState × Option String :=
  if t.exitFlag then (t, some "exiting")
  else putMessagesLoop bp t msgs 0 0

/-- Reference fold for stating C2: run `put` on each message in turn until
the first failure, returning the final state, the number of messages
successfully enqueued (the 0-based index of the failing `put`, when one
fails), and the first error. -/
def putSeq (bp : Nat → Option String) (t : TopicState) :
    List Message → TopicState × Nat × Option String
  | [] => (t, 0, none)
  | m :: rest =>
      let r := t.put bp m
      match r.2 with
      | some e => (r.1, 0, some e)
      | none =>
          let s := putSeq bp r.1 rest
          (s.1, s.2.1 + 1, s.2.2)

/-- Total body length of a batch of messages. -/
def sumBodyBytes (msgs : List Message) : Nat :=
  (msgs.map (fun m => m.body.length)).sum

/-- Lookup in the topic's channel registry (`t.channelMap[channelName]`). -/
def lookupChan (m : List (String × ChannelState)) (name : String) :
    Option ChannelState :=
  (m.find? (fun p => p.1 == name)).map (fun p => p.2)

/-- Removal from the registry (`delete(t.channelMap, channelName)`). -/
def removeChan (m : List (String × ChannelState)) (name : String) :
    List (String × ChannelState) :=
  m.filter (fun p => ¬ p.1 == name)

/-- Function `Topic.DeleteExistingChannel` (topic.go:157-186): error when the
channel is absent; otherwise remove it from the registry, delete the
removed channel (it leaves the observable topic state), signal the pump,
and — when no channels remain on an ephemeral topic — run the deletion
callback through the one-shot `deleter sync.Once` latch, modelled by the
`deleterDone` flag plus an invocation counter. -/
def TopicState.DeleteExistingChannel (t : TopicState) (name : String) :
    TopicState × Option String :=
  match lookupChan t.channelMap name with
  | none => (t, some "channel does not exist")
  | some _ =>
      let m := removeChan t.channelMap name
      let numChannels := m.length
      let t1 := { t with channelMap := m }
      if numChannels = 0 ∧ t1.ephemeral then
        if t1.deleterDone then (t1, none)
        else ({ t1 with deleterDone := true
                        callbackCount := t1.callbackCount + 1 }, none)
      else (t1, none)

/-- The drain loop of `Topic.flush` (topic.go:449-473): every message left
in the memory channel is encoded and written to the backend; write errors
are logged and otherwise ignored. -/
def flushLoop (bp : Nat → Option String) (b : BackendState) :
    List Message → BackendState
  | [] => b
  | m :: rest => flushLoop bp (b.putFrame bp (encodeMessage m)).1 rest

/-- Function `Topic.flush` (topic.go:449-473) as a state transformer: the memory
channel is emptied into the backend. -/
def TopicState.flush (bp : Nat → Option String) (t : TopicState) : TopicState :=
  { t with memChan := [], backend := flushLoop bp t.backend t.memChan }

/-- Function `Topic.Empty` (topic.go:436-447): drop everything in the memory channel
and empty the backend. -/
def TopicState.Empty (t : TopicState) : TopicState :=
  { t with memChan := [], backend := { t.backend with frames := [] } }

/-- Function `Topic.exit` (topic.go:382-434): the shutdown path shared by `Delete`
(deleted = true) and `Close` (deleted = false). The CAS on `exitFlag`
admits only the first caller; it closes `exitChan`, then either deletes
every channel, empties the queues and deletes the backend, or closes every
channel, flushes the memory channel to the backend and closes the
backend. -/
def TopicState.exit (bp : Nat → Option String) (deleted : Bool)
    (t : TopicState) : TopicState × Option String :=
  if t.exitFlag then (t, some "exiting")
  else
    let t1 := { t with exitFlag := true, exitChanClosed := true }
    if deleted then
      let t2 := { t1 with channelMap := [] }
      let t3 := t2.Empty
      ({ t3 with backend := { t3.backend with deleted := true } }, none)
    else
      let cm := t1.channelMap.map (fun p => (p.1, p.2.Close))
      let t2 := { t1 with channelMap := cm }
      let t3 := t2.flush bp
      ({ t3 with backend := { t3.backend with closed := true } }, none)

/-- Function `Topic.Delete` (topic.go:373-375). -/
def TopicState.Delete (bp : Nat → Option String) (t : TopicState) :
    TopicState × Option String :=
  t.exit bp true

/-- Here `Topic.Close2` is `Topic.Close` (topic.go:378-380); the name avoids
clashing with `ChannelState.Close` under dot notation. -/
def TopicState.Close2 (bp : Nat → Option String) (t : TopicState) :
    TopicState × Option String :=
  t.exit bp false

/-- The ideal-size computation of `NSQD.resizePool` (nsqd.go:625-630):
`int(float64(num) * 0.25)` — which is exact integer division by 4 for any
realizable channel count (below 2^53) — raised to at least 1, and, only in
the else-branch, capped at `QueueScanWorkerPoolMax`. -/
def idealPoolSize (num poolMax : Nat) : Nat :=
  let ideal := num / 4
  if ideal < 1 then 1
  else if ideal > poolMax then poolMax
  else ideal

/-- The adjustment loop of `NSQD.resizePool` (nsqd.go:634-652): while the
actual pool size differs from the ideal one, either one send on `closeCh`
retires one worker (`poolSize--`) or one `queueScanWorker` goroutine is
spawned (`poolSize++`). Returns (final pool size, workers spawned, sends
made on `closeCh`). -/
def resizeLoop (ideal : Nat) (cur : Nat) : Nat × Nat × Nat :=
  if h : ideal = cur then (cur, 0, 0)
  else if hlt : ideal < cur then
    let r := resizeLoop ideal (cur - 1)
    (r.1, r.2.1, r.2.2 + 1)
  else
    let r := resizeLoop ideal (cur + 1)
    (r.1, r.2.1 + 1, r.2.2)
termination_by (ideal - cur) + (cur - ideal)
decreasing_by
  all_goals omega

/-- Function `NSQD.resizePool` (nsqd.go:624-653) starting from pool size `cur`. -/
def resizePool (num poolMax cur : Nat) : Nat × Nat × Nat :=
  resizeLoop (idealPoolSize num poolMax) cur

/-- An input a `queueScanWorker` goroutine can receive: a channel handed
over `workCh` — carried here as the two dirty results of
`processInFlightQueue` and `processDeferredQueue`, whose bodies live in
channel.go outside the sources — or a receive from `closeCh`. -/
inductive WorkerEvent where
  | work (inFlightDirty deferredDirty : Bool)
  | closeSignal
  deriving DecidableEq, Repr

/-- What one iteration of the worker loop does: answer on `responseCh` and
keep looping, or return from the goroutine. -/
inductive WorkerStep where
  | respond (dirty : Bool)
  | ret
  deriving DecidableEq, Repr

/-- One iteration of `NSQD.queueScanWorker` (nsqd.go:660-690): work makes
it report whether either queue was dirty and continue; a receive from
`closeCh` makes the goroutine return. -/
def queueScanWorkerStep : WorkerEvent → WorkerStep
  | .work a b => .respond (a || b)
  | .closeSignal => .ret

/-- What `queueScanLoop` does after collecting the responses of one
sampling pass: jump straight back to the sampling label, or fall back to
the select that waits for the next `ScanInterval` tick. -/
inductive ScanNext where
  | loopAgain
  | waitTick
  deriving DecidableEq, Repr

/-- The escalation decision of `NSQD.queueScanLoop` (nsqd.go:758-767):
with `num` sampled channels of which `numDirty` answered dirty, the loop
repeats immediately exactly when `float64(numDirty)/float64(num)` exceeds
`QueueScanDirtyPercent`; the float ratio is modelled as a rational, which
is exact for the comparisons the claim is about. -/
def scanPassNext (numDirty num : Nat) (dirtyPercent : ℚ) : ScanNext :=
  if (numDirty : ℚ) / (num : ℚ) > dirtyPercent then .loopAgain else .waitTick

/-- Modelled from the spec: one hexadecimal digit character. -/
def hexDigit (n : Nat) : Char :=
  if n < 10 then Char.ofNat (48 + n) else Char.ofNat (87 + n)

/-- Modelled from the spec: `guid.Hex()` renders the 64-bit guid as its
16-digit hexadecimal `MessageID` (guid.go is not among the sources). -/
def guidHex (g : Nat) : List Char :=
  (List.range 16).map (fun i => hexDigit (g / 16 ^ (15 - i) % 16))

/-- The retry loop of `Topic.GenerateID` (topic.go:524-532): attempt `k`
asks the guid factory (`idFactory.NewGUID`, modelled as the oracle
`newGUID` since guid.go is not among the sources); an error is swallowed,
a 1 ms sleep is performed (counted in the second component) and the loop
retries. The Go loop is unbounded; `fuel` bounds the model and `none`
arises only from fuel exhaustion, never from a factory error. -/
def generateIDLoop (newGUID : Nat → Except String Nat) :
    Nat → Nat → Option (List Char × Nat)
  | 0, _ => none
  | fuel + 1, k =>
      match newGUID k with
      | .ok g => some (guidHex g, 0)
      | .error _ =>
          (generateIDLoop newGUID fuel (k + 1)).map (fun r => (r.1, r.2 + 1))

/-- Function `Topic.GenerateID` (topic.go:524-532) from the first attempt. -/
def GenerateID (newGUID : Nat → Except String Nat) (fuel : Nat) :
    Option (List Char × Nat) :=
  generateIDLoop newGUID fuel 0

/-- State of the broker's topic registry (nsqd.go): `topicMap` maps each
topic name to a Topic, identified here by an allocation id; `nextTopicId`
is the id the next `NewTopic` allocation receives. -/
structure NsqdState where
  topicMap : List (String × Nat)
  nextTopicId : Nat
  deriving DecidableEq, Repr

/-- Lookup in the broker's registry (`n.topicMap[topicName]`). -/
def lookupTopic (m : List (String × Nat)) (name : String) : Option Nat :=
  (m.find? (fun p => p.1 == name)).map (fun p => p.2)

/-- The write-locked section of `NSQD.GetTopic` (nsqd.go:482-499): under
the write lock the registry is checked again — another goroutine may have
created the topic between the read-locked miss and this point — and only
on a second miss is a new Topic allocated and inserted. -/
def getTopicLocked (s : NsqdState) (name : String) : NsqdState × Nat :=
  match lookupTopic s.topicMap name with
  | some t => (s, t)
  | none =>
      ({ topicMap := s.topicMap ++ [(name, s.nextTopicId)]
         nextTopicId := s.nextTopicId + 1 }, s.nextTopicId)

/-- Function `NSQD.GetTopic` (nsqd.go:473-542): a read-locked lookup answers most
calls; on a miss the write-locked re-check-and-create section runs. The
remainder of the function (lookupd queries, channel pre-creation,
`Start`) never touches `topicMap`. -/
def GetTopic (s : NsqdState) (name : String) : NsqdState × Nat :=
  match lookupTopic s.topicMap name with
  | some t => (s, t)
  | none => getTopicLocked s name

theorem messagePumpFanOut_length (now : Int) (msg : Message) (k : Nat) :
    (messagePumpFanOut now msg k).length = k := by
  simp [messagePumpFanOut]

theorem put_preserves_counters (bp : Nat → Option String) (t : TopicState)
    (m : Message) :
    (t.put bp m).1.messageCount = t.messageCount ∧
    (t.put bp m).1.messageBytes = t.messageBytes ∧
    (t.put bp m).1.exitFlag = t.exitFlag := by
  unfold TopicState.put BackendState.putFrame
  by_cases h : t.memChan.length < t.memCap
  · simp [h]
  · simp only [h, if_false]
    cases bp t.backend.writeAttempts <;> simp

/-- C3: while the exit flag is set, `PutMessage` returns the "exiting"
error and leaves the whole topic state — in particular `messageCount`,
`messageBytes`, the memory queue and the backend — unchanged; a
successful `PutMessage(m)` on a non-exiting topic bumps `messageCount` by
exactly one and `messageBytes` by exactly the body length of `m`. -/
theorem putMessage_exit_and_counters (bp : Nat → Option String)
    (t : TopicState) (m : Message) :
    (t.exitFlag = true → t.PutMessage bp m = (t, some "exiting")) ∧
    (t.exitFlag = false → (t.PutMessage bp m).2 = none →
      (t.PutMessage bp m).1.messageCount = t.messageCount + 1 ∧
      (t.PutMessage bp m).1.messageBytes = t.messageBytes + m.body.length) := by
  constructor
  · intro h
    simp [TopicState.PutMessage, h]
  · intro h hok
    have hct := put_preserves_counters bp t m
    simp only [TopicState.PutMessage, h, if_false, Bool.false_eq_true] at hok ⊢
    cases hput : (t.put bp m).2 with
    | some e => rw [hput] at hok; simp at hok
    | none => simp [hct.1, hct.2.1]

/-- Witness for C3 at concrete inputs: the exiting branch on a topic with
the exit flag set. -/
theorem putMessage_exit_and_counters_witness :
    TopicState.PutMessage (fun _ => none)
      ⟨true, false, 2, [], ⟨[], 0, false, false⟩, 5, 7, none, [], false, 0, false⟩
      ⟨1, [9], 0, 0, 0⟩ =
    (⟨true, false, 2, [], ⟨[], 0, false, false⟩, 5, 7, none, [], false, 0, false⟩,
     some "exiting") :=
  (putMessage_exit_and_counters (fun _ => none)
      ⟨true, false, 2, [], ⟨[], 0, false, false⟩, 5, 7, none, [], false, 0, false⟩
      ⟨1, [9], 0, 0, 0⟩).1 rfl

/-- C4: the enqueue policy of `Topic.put` — with free capacity in the
memory channel the message is sent there and the backend and health
sentinel are untouched; with the memory channel full the serialized frame
is written to the backend exactly when the write succeeds, the write
result (success or error) is recorded in the health sentinel, and the
write error, if any, is returned to the caller (`put` returns nil in all
other cases). -/
theorem put_enqueue_policy (bp : Nat → Option String) (t : TopicState)
    (m : Message) :
    (t.memChan.length < t.memCap →
       t.put bp m = ({ t with memChan := t.memChan ++ [m] }, none)) ∧
    (¬ t.memChan.length < t.memCap →
       (t.put bp m).1.memChan = t.memChan ∧
       (t.put bp m).1.health = bp t.backend.writeAttempts ∧
       (t.put bp m).2 = bp t.backend.writeAttempts ∧
       (t.put bp m).1.backend.frames =
         t.backend.frames ++
           (match bp t.backend.writeAttempts with
            | none => [encodeMessage m]
            | some _ => [])) := by
  constructor
  · intro h
    simp [TopicState.put, h]
  · intro h
    unfold TopicState.put BackendState.putFrame
    simp only [h, if_false]
    cases bp t.backend.writeAttempts <;> simp

/-- Witness for C4 at concrete inputs: a full memory channel (capacity 0)
and a failing backend write, showing the error is surfaced and recorded. -/
theorem put_enqueue_policy_witness :
    (TopicState.put (fun _ => some "disk full")
        ⟨false, false, 0, [], ⟨[], 0, false, false⟩, 0, 0, none, [], false, 0, false⟩
        ⟨1, [9], 0, 0, 0⟩).1.memChan = [] ∧
    (TopicState.put (fun _ => some "disk full")
        ⟨false, false, 0, [], ⟨[], 0, false, false⟩, 0, 0, none, [], false, 0, false⟩
        ⟨1, [9], 0, 0, 0⟩).1.health = (fun _ => some "disk full") 0 ∧
    (TopicState.put (fun _ => some "disk full")
        ⟨false, false, 0, [], ⟨[], 0, false, false⟩, 0, 0, none, [], false, 0, false⟩
        ⟨1, [9], 0, 0, 0⟩).2 = (fun _ => some "disk full") 0 ∧
    (TopicState.put (fun _ => some "disk full")
        ⟨false, false, 0, [], ⟨[], 0, false, false⟩, 0, 0, none, [], false, 0, false⟩
        ⟨1, [9], 0, 0, 0⟩).1.backend.frames =
      [] ++ (match (fun _ => some "disk full") 0 with
             | none => [encodeMessage ⟨1, [9], 0, 0, 0⟩]
             | some _ => []) :=
  (put_enqueue_policy (fun _ => some "disk full")
      ⟨false, false, 0, [], ⟨[], 0, false, false⟩, 0, 0, none, [], false, 0, false⟩
      ⟨1, [9], 0, 0, 0⟩).2 (by simp)

/-- C1: the topic pump hands the original message instance to the first
channel of the snapshot and hands every later channel a fresh copy whose
id, body, timestamp and deferred value equal the original's; each channel
is served via `PutMessageDeferred` exactly when the deferred field is
non-zero and via `PutMessage` otherwise. -/
theorem messagePump_fanout_correct (now : Int) (msg : Message) (k i : Nat)
    (hi : i < (messagePumpFanOut now msg k).length) :
    let d := (messagePumpFanOut now msg k).get ⟨i, hi⟩
    (i = 0 → d.1 = msg) ∧
    (0 < i → d.1 = { NewMessage msg.id msg.body now with
                       timestamp := msg.timestamp, deferred := msg.deferred }) ∧
    d.1.id = msg.id ∧ d.1.body = msg.body ∧
    d.1.timestamp = msg.timestamp ∧ d.1.deferred = msg.deferred ∧
    d.2 = (if msg.deferred ≠ 0 then PutKind.putMessageDeferred else PutKind.putMessage) := by
  have hk : i < k := by simpa [messagePumpFanOut] using hi
  have hget : (messagePumpFanOut now msg k).get ⟨i, hi⟩ = fanOutDelivery now msg i := by
    simp [messagePumpFanOut]
  rw [hget]
  by_cases h0 : i = 0
  · subst h0
    refine ⟨fun _ => rfl, fun h => absurd h (by omega), ?_, ?_, ?_, ?_, ?_⟩ <;>
      simp [fanOutDelivery]
  · refine ⟨fun h => absurd h h0, fun _ => ?_, ?_, ?_, ?_, ?_, ?_⟩ <;>
      simp [fanOutDelivery, h0, NewMessage]

theorem putSeq_count_le (bp : Nat → Option String) :
    ∀ (msgs : List Message) (t : TopicState),
      (putSeq bp t msgs).2.1 ≤ msgs.length ∧
      ((putSeq bp t msgs).2.2 = none ↔ (putSeq bp t msgs).2.1 = msgs.length) := by
  intro msgs
  induction msgs with
  | nil => intro t; simp [putSeq]
  | cons m rest ih =>
      intro t
      unfold putSeq
      cases hput : (t.put bp m).2 with
      | some e => simp [hput]
      | none =>
          have h := ih (t.put bp m).1
          simp only [hput, List.length_cons]
          constructor
          · have := h.1
            omega
          · constructor
            · intro hnone
              have := h.2.mp hnone
              omega
            · intro hlen
              exact h.2.mpr (by omega)

theorem putMessagesLoop_fields (bp : Nat → Option String) :
    ∀ (msgs : List Message) (t : TopicState) (i tb : Nat),
      (putMessagesLoop bp t msgs i tb).2 = (putSeq bp t msgs).2.2 ∧
      (putMessagesLoop bp t msgs i tb).1.messageCount =
        t.messageCount + i + (putSeq bp t msgs).2.1 ∧
      (putMessagesLoop bp t msgs i tb).1.messageBytes =
        t.messageBytes + tb + sumBodyBytes (msgs.take (putSeq bp t msgs).2.1) := by
  intro msgs
  induction msgs with
  | nil => intro t i tb; simp [putMessagesLoop, putSeq, sumBodyBytes]
  | cons m rest ih =>
      intro t i tb
      have hct := put_preserves_counters bp t m
      unfold putMessagesLoop putSeq
      cases hput : (t.put bp m).2 with
      | some e => simp [hput, hct.1, hct.2.1, sumBodyBytes]
      | none =>
          have h := ih (t.put bp m).1 (i + 1) (tb + m.body.length)
          simp only [hput, List.take_succ_cons]
          refine ⟨h.1, ?_, ?_⟩
          · rw [h.2.1, hct.1]
            omega
          · rw [h.2.2, hct.2.1]
            simp only [sumBodyBytes, List.map_cons, List.sum_cons]
            omega

/-- C2: on a non-exiting topic, `PutMessages` returns the first `put`
error; when the failing `put` has 0-based index `i` (that is, exactly the
first `i` puts succeed), `messageCount` grows by exactly `i` and
`messageBytes` by exactly the total body length of the first `i` messages;
when every put succeeds the error is nil, the success count is the whole
batch, so the counters grow by the batch length and the total body
length. -/
theorem putMessages_partial_failure (bp : Nat → Option String)
    (t : TopicState) (msgs : List Message) (hexit : t.exitFlag = false) :
    (t.PutMessages bp msgs).2 = (putSeq bp t msgs).2.2 ∧
    (t.PutMessages bp msgs).1.messageCount =
      t.messageCount + (putSeq bp t msgs).2.1 ∧
    (t.PutMessages bp msgs).1.messageBytes =
      t.messageBytes + sumBodyBytes (msgs.take (putSeq bp t msgs).2.1) ∧
    (putSeq bp t msgs).2.1 ≤ msgs.length ∧
    ((putSeq bp t msgs).2.2 = none ↔ (putSeq bp t msgs).2.1 = msgs.length) := by
  have hloop := putMessagesLoop_fields bp msgs t 0 0
  have hcount := putSeq_count_le bp msgs t
  simp only [TopicState.PutMessages, hexit, Bool.false_eq_true, if_false]
  refine ⟨hloop.1, ?_, ?_, hcount.1, hcount.2⟩
  · rw [hloop.2.1]
    omega
  · rw [hloop.2.2]
    omega

/-- Witness for C2 at concrete inputs: memory capacity 1 and a failing
disk, so the batch of three messages fails at 0-based index 1 after one
successful put; the counters reflect exactly that one message. -/
theorem putMessages_partial_failure_witness :
    (TopicState.PutMessages (fun _ => some "disk full")
        ⟨false, false, 1, [], ⟨[], 0, false, false⟩, 10, 20, none, [], false, 0, false⟩
        [⟨1, [5, 5], 0, 0, 0⟩, ⟨2, [6], 0, 0, 0⟩, ⟨3, [7], 0, 0, 0⟩]).2 =
      (putSeq (fun _ => some "disk full")
        ⟨false, false, 1, [], ⟨[], 0, false, false⟩, 10, 20, none, [], false, 0, false⟩
        [⟨1, [5, 5], 0, 0, 0⟩, ⟨2, [6], 0, 0, 0⟩, ⟨3, [7], 0, 0, 0⟩]).2.2 ∧
    (TopicState.PutMessages (fun _ => some "disk full")
        ⟨false, false, 1, [], ⟨[], 0, false, false⟩, 10, 20, none, [], false, 0, false⟩
        [⟨1, [5, 5], 0, 0, 0⟩, ⟨2, [6], 0, 0, 0⟩, ⟨3, [7], 0, 0, 0⟩]).1.messageCount =
      10 + (putSeq (fun _ => some "disk full")
        ⟨false, false, 1, [], ⟨[], 0, false, false⟩, 10, 20, none, [], false, 0, false⟩
        [⟨1, [5, 5], 0, 0, 0⟩, ⟨2, [6], 0, 0, 0⟩, ⟨3, [7], 0, 0, 0⟩]).2.1 ∧
    (TopicState.PutMessages (fun _ => some "disk full")
        ⟨false, false, 1, [], ⟨[], 0, false, false⟩, 10, 20, none, [], false, 0, false⟩
        [⟨1, [5, 5], 0, 0, 0⟩, ⟨2, [6], 0, 0, 0⟩, ⟨3, [7], 0, 0, 0⟩]).1.messageBytes =
      20 + sumBodyBytes ([⟨1, [5, 5], 0, 0, 0⟩, ⟨2, [6], 0, 0, 0⟩, ⟨3, [7], 0, 0, 0⟩].take
        (putSeq (fun _ => some "disk full")
          ⟨false, false, 1, [], ⟨[], 0, false, false⟩, 10, 20, none, [], false, 0, false⟩
          [⟨1, [5, 5], 0, 0, 0⟩, ⟨2, [6], 0, 0, 0⟩, ⟨3, [7], 0, 0, 0⟩]).2.1) ∧
    (putSeq (fun _ => some "disk full")
        ⟨false, false, 1, [], ⟨[], 0, false, false⟩, 10, 20, none, [], false, 0, false⟩
        [⟨1, [5, 5], 0, 0, 0⟩, ⟨2, [6], 0, 0, 0⟩, ⟨3, [7], 0, 0, 0⟩]).2.1 ≤ 3 ∧
    ((putSeq (fun _ => some "disk full")
        ⟨false, false, 1, [], ⟨[], 0, false, false⟩, 10, 20, none, [], false, 0, false⟩
        [⟨1, [5, 5], 0, 0, 0⟩, ⟨2, [6], 0, 0, 0⟩, ⟨3, [7], 0, 0, 0⟩]).2.2 = none ↔
      (putSeq (fun _ => some "disk full")
        ⟨false, false, 1, [], ⟨[], 0, false, false⟩, 10, 20, none, [], false, 0, false⟩
        [⟨1, [5, 5], 0, 0, 0⟩, ⟨2, [6], 0, 0, 0⟩, ⟨3, [7], 0, 0, 0⟩]).2.1 = 3) :=
  putMessages_partial_failure (fun _ => some "disk full")
    ⟨false, false, 1, [], ⟨[], 0, false, false⟩, 10, 20, none, [], false, 0, false⟩
    [⟨1, [5, 5], 0, 0, 0⟩, ⟨2, [6], 0, 0, 0⟩, ⟨3, [7], 0, 0, 0⟩] rfl

theorem lookupChan_removeChan (m : List (String × ChannelState))
    (name : String) :
    lookupChan (removeChan m name) name = none := by
  simp only [lookupChan, removeChan, Option.map_eq_none']
  rw [List.find?_eq_none]
  intro x hx
  have h2 := (List.mem_filter.mp hx).2
  simpa using h2

/-- C7: the deletion callback of an ephemeral topic fires exactly once —
`DeleteExistingChannel` fires it precisely when it removes the last
channel while the one-shot latch is still unfired, a fired latch keeps
every later call from firing it again, a removal that leaves channels
behind (or a non-ephemeral topic) never fires it, and deleting an absent
channel — in particular deleting the same channel a second time — returns
the "channel does not exist" error with the topic state unchanged. -/
theorem deleteExistingChannel_callback_once (t : TopicState) (name : String) :
    (lookupChan t.channelMap name = none →
       t.DeleteExistingChannel name = (t, some "channel does not exist")) ∧
    (∀ c, lookupChan t.channelMap name = some c →
       lookupChan (t.DeleteExistingChannel name).1.channelMap name = none) ∧
    (t.deleterDone = true →
       (t.DeleteExistingChannel name).1.callbackCount = t.callbackCount ∧
       (t.DeleteExistingChannel name).1.deleterDone = true) ∧
    (t.ephemeral = true → t.deleterDone = false →
       ∀ c, lookupChan t.channelMap name = some c →
       removeChan t.channelMap name = [] →
       t.DeleteExistingChannel name =
         ({ t with channelMap := [], deleterDone := true
                   callbackCount := t.callbackCount + 1 }, none)) ∧
    ((removeChan t.channelMap name ≠ [] ∨ t.ephemeral = false) →
       (t.DeleteExistingChannel name).1.callbackCount = t.callbackCount ∧
       (t.DeleteExistingChannel name).1.deleterDone = t.deleterDone) := by
  refine ⟨?_, ?_, ?_, ?_, ?_⟩
  · intro h
    simp [TopicState.DeleteExistingChannel, h]
  · intro c h
    simp only [TopicState.DeleteExistingChannel, h]
    by_cases hcond : removeChan t.channelMap name = [] ∧ t.ephemeral = true
    · by_cases hdone : t.deleterDone = true <;>
        simp [hcond, hdone, lookupChan]
    · simp [hcond, lookupChan_removeChan]
  · intro hdone
    cases h : lookupChan t.channelMap name with
    | none => simp [TopicState.DeleteExistingChannel, h, hdone]
    | some c =>
        simp only [TopicState.DeleteExistingChannel, h]
        by_cases hcond : removeChan t.channelMap name = [] ∧ t.ephemeral = true <;>
          simp [hcond, hdone]
  · intro heph hdone c h hlast
    simp [TopicState.DeleteExistingChannel, h, hlast, heph, hdone]
  · intro hnot
    cases h : lookupChan t.channelMap name with
    | none => simp [TopicState.DeleteExistingChannel, h]
    | some c =>
        simp only [TopicState.DeleteExistingChannel, h]
        have hcond : ¬ (removeChan t.channelMap name = [] ∧ t.ephemeral = true) := by
          rcases hnot with h1 | h1
          · intro hc
            exact h1 hc.1
          · intro hc
            rw [h1] at hc
            exact Bool.false_ne_true hc.2
        simp [hcond]

/-- Witness for C7 at concrete inputs: an ephemeral topic with one channel
"c"; deleting it fires the callback once, and the resulting registry no
longer holds "c" so a repeat delete would hit the error branch. -/
theorem deleteExistingChannel_callback_once_witness :
    TopicState.DeleteExistingChannel
        ⟨false, true, 2, [], ⟨[], 0, false, false⟩, 0, 0, none,
         [("c", ⟨false⟩)], false, 0, false⟩ "c" =
      ({ (⟨false, true, 2, [], ⟨[], 0, false, false⟩, 0, 0, none,
           [("c", ⟨false⟩)], false, 0, false⟩ : TopicState) with
           channelMap := [], deleterDone := true, callbackCount := 0 + 1 }, none) :=
  (deleteExistingChannel_callback_once
      ⟨false, true, 2, [], ⟨[], 0, false, false⟩, 0, 0, none,
       [("c", ⟨false⟩)], false, 0, false⟩ "c").2.2.2.1
    rfl rfl ⟨false⟩ (by simp [lookupChan]) (by simp [removeChan])

/-- C9: topic shutdown is one-shot — among calls to `Delete` and `Close`
(both `exit`), only the caller that finds the exit flag unset performs the
shutdown sequence (closing `exitChan`, deleting or closing the channels,
emptying or flushing the queues, deleting or closing the backend) and any
call on an already-exiting topic, in particular any call after the first,
returns the "exiting" error with the topic state unchanged. -/
theorem topic_exit_once (bp : Nat → Option String) (d1 d2 : Bool)
    (t : TopicState) :
    t.Delete bp = t.exit bp true ∧
    t.Close2 bp = t.exit bp false ∧
    (t.exitFlag = true → t.exit bp d1 = (t, some "exiting")) ∧
    (t.exitFlag = false →
       (t.exit bp d1).2 = none ∧
       (t.exit bp d1).1.exitFlag = true ∧
       (t.exit bp d1).1.exitChanClosed = true ∧
       (d1 = true →
          (t.exit bp d1).1.channelMap = [] ∧
          (t.exit bp d1).1.memChan = [] ∧
          (t.exit bp d1).1.backend.frames = [] ∧
          (t.exit bp d1).1.backend.deleted = true) ∧
       (d1 = false →
          (t.exit bp d1).1.memChan = [] ∧
          (t.exit bp d1).1.channelMap =
            t.channelMap.map (fun p => (p.1, p.2.Close)) ∧
          (t.exit bp d1).1.backend.frames =
            (flushLoop bp t.backend t.memChan).frames ∧
          (t.exit bp d1).1.backend.closed = true) ∧
       (t.exit bp d1).1.exit bp d2 = ((t.exit bp d1).1, some "exiting")) := by
  refine ⟨rfl, rfl, ?_, ?_⟩
  · intro h
    simp [TopicState.exit, h]
  · intro h
    cases d1 <;>
      simp [TopicState.exit, TopicState.Empty, TopicState.flush, h]

/-- Witness for C9 at concrete inputs: a fresh topic closed then deleted;
the first call shuts down, the second reports "exiting" and changes
nothing. -/
theorem topic_exit_once_witness :
    (TopicState.exit (fun _ => none) false
        ⟨false, false, 1, [⟨1, [2], 0, 0, 0⟩], ⟨[], 0, false, false⟩, 1, 1, none,
         [("c", ⟨false⟩)], false, 0, false⟩).2 = none ∧
    (TopicState.exit (fun _ => none) false
        ⟨false, false, 1, [⟨1, [2], 0, 0, 0⟩], ⟨[], 0, false, false⟩, 1, 1, none,
         [("c", ⟨false⟩)], false, 0, false⟩).1.exitFlag = true ∧
    (TopicState.exit (fun _ => none) false
        ⟨false, false, 1, [⟨1, [2], 0, 0, 0⟩], ⟨[], 0, false, false⟩, 1, 1, none,
         [("c", ⟨false⟩)], false, 0, false⟩).1.exitChanClosed = true ∧
    (false = true →
       (TopicState.exit (fun _ => none) false
          ⟨false, false, 1, [⟨1, [2], 0, 0, 0⟩], ⟨[], 0, false, false⟩, 1, 1, none,
           [("c", ⟨false⟩)], false, 0, false⟩).1.channelMap = [] ∧
       (TopicState.exit (fun _ => none) false
          ⟨false, false, 1, [⟨1, [2], 0, 0, 0⟩], ⟨[], 0, false, false⟩, 1, 1, none,
           [("c", ⟨false⟩)], false, 0, false⟩).1.memChan = [] ∧
       (TopicState.exit (fun _ => none) false
          ⟨false, false, 1, [⟨1, [2], 0, 0, 0⟩], ⟨[], 0, false, false⟩, 1, 1, none,
           [("c", ⟨false⟩)], false, 0, false⟩).1.backend.frames = [] ∧
       (TopicState.exit (fun _ => none) false
          ⟨false, false, 1, [⟨1, [2], 0, 0, 0⟩], ⟨[], 0, false, false⟩, 1, 1, none,
           [("c", ⟨false⟩)], false, 0, false⟩).1.backend.deleted = true) ∧
    (false = false →
       (TopicState.exit (fun _ => none) false
          ⟨false, false, 1, [⟨1, [2], 0, 0, 0⟩], ⟨[], 0, false, false⟩, 1, 1, none,
           [("c", ⟨false⟩)], false, 0, false⟩).1.memChan = [] ∧
       (TopicState.exit (fun _ => none) false
          ⟨false, false, 1, [⟨1, [2], 0, 0, 0⟩], ⟨[], 0, false, false⟩, 1, 1, none,
           [("c", ⟨false⟩)], false, 0, false⟩).1.channelMap =
         [("c", (⟨false⟩ : ChannelState))].map (fun p => (p.1, p.2.Close)) ∧
       (TopicState.exit (fun _ => none) false
          ⟨false, false, 1, [⟨1, [2], 0, 0, 0⟩], ⟨[], 0, false, false⟩, 1, 1, none,
           [("c", ⟨false⟩)], false, 0, false⟩).1.backend.frames =
         (flushLoop (fun _ => none) ⟨[], 0, false, false⟩ [⟨1, [2], 0, 0, 0⟩]).frames ∧
       (TopicState.exit (fun _ => none) false
          ⟨false, false, 1, [⟨1, [2], 0, 0, 0⟩], ⟨[], 0, false, false⟩, 1, 1, none,
           [("c", ⟨false⟩)], false, 0, false⟩).1.backend.closed = true) ∧
    (TopicState.exit (fun _ => none) false
        ⟨false, false, 1, [⟨1, [2], 0, 0, 0⟩], ⟨[], 0, false, false⟩, 1, 1, none,
         [("c", ⟨false⟩)], false, 0, false⟩).1.exit (fun _ => none) true =
      ((TopicState.exit (fun _ => none) false
          ⟨false, false, 1, [⟨1, [2], 0, 0, 0⟩], ⟨[], 0, false, false⟩, 1, 1, none,
           [("c", ⟨false⟩)], false, 0, false⟩).1, some "exiting") :=
  (topic_exit_once (fun _ => none) false true
      ⟨false, false, 1, [⟨1, [2], 0, 0, 0⟩], ⟨[], 0, false, false⟩, 1, 1, none,
       [("c", ⟨false⟩)], false, 0, false⟩).2.2.2 rfl

/-- Witness for C1 at a concrete input: a deferred message fanned out to
three channels, looking at the copy for the second channel. -/
theorem messagePump_fanout_correct_witness :
    (1 < (messagePumpFanOut 7 ⟨5, [1, 2], 42, 3, 9⟩ 3).length) ∧
    (let d := (messagePumpFanOut 7 ⟨5, [1, 2], 42, 3, 9⟩ 3).get
        ⟨1, by simp [messagePumpFanOut]⟩
     (1 = 0 → d.1 = ⟨5, [1, 2], 42, 3, 9⟩) ∧
     (0 < 1 → d.1 = { NewMessage 5 [1, 2] 7 with timestamp := 42, deferred := 9 }) ∧
     d.1.id = 5 ∧ d.1.body = [1, 2] ∧
     d.1.timestamp = 42 ∧ d.1.deferred = 9 ∧
     d.2 = (if (9 : Int) ≠ 0 then PutKind.putMessageDeferred else PutKind.putMessage)) :=
  ⟨by simp [messagePumpFanOut],
   messagePump_fanout_correct 7 ⟨5, [1, 2], 42, 3, 9⟩ 3 1 (by simp [messagePumpFanOut])⟩

theorem resizeLoop_result (i : Nat) :
    ∀ (n c : Nat), (i - c) + (c - i) ≤ n →
      resizeLoop i c = (i, i - c, c - i) := by
  intro n
  induction n with
  | zero =>
      intro c h
      have hc : i = c := by omega
      subst hc
      rw [resizeLoop]
      simp
  | succ n ih =>
      intro c h
      rw [resizeLoop]
      split
      · rename_i h1
        subst h1
        simp
      · rename_i h1
        split
        · rename_i h2
          simp only [ih (c - 1) (by omega), Prod.mk.injEq, true_and]
          omega
        · rename_i h2
          simp only [ih (c + 1) (by omega), Prod.mk.injEq, true_and]
          omega

/-- C5: `resizePool(num)` terminates with the pool size equal to
`floor(num * 0.25)` raised to at least 1 and capped at
`QueueScanWorkerPoolMax`; the loop makes exactly one send on `closeCh`
per excess worker, and a worker iteration returns exactly on a `closeCh`
receive — so each single send retires exactly one `queueScanWorker`
goroutine. -/
theorem resizePool_clamp (num poolMax cur : Nat) (hmax : 1 ≤ poolMax) :
    (resizePool num poolMax cur).1 = min (max 1 (num / 4)) poolMax ∧
    (resizePool num poolMax cur).2.2 = cur - idealPoolSize num poolMax ∧
    (resizePool num poolMax cur).2.1 = idealPoolSize num poolMax - cur ∧
    queueScanWorkerStep WorkerEvent.closeSignal = WorkerStep.ret ∧
    (∀ a b, queueScanWorkerStep (WorkerEvent.work a b) ≠ WorkerStep.ret) := by
  have hr := resizeLoop_result (idealPoolSize num poolMax)
    ((idealPoolSize num poolMax - cur) + (cur - idealPoolSize num poolMax)) cur
    (le_refl _)
  have hideal : idealPoolSize num poolMax = min (max 1 (num / 4)) poolMax := by
    simp only [idealPoolSize]
    split
    · omega
    · split <;> omega
  refine ⟨?_, ?_, ?_, rfl, ?_⟩
  · rw [resizePool, hr]
    exact hideal
  · rw [resizePool, hr]
  · rw [resizePool, hr]
  · intro a b hc
    simp [queueScanWorkerStep] at hc

/-- Witness for C5 at concrete inputs: 10 channels, pool max 4, current
pool size 7 — the target is floor(10/4) = 2, so 5 sends on closeCh. -/
theorem resizePool_clamp_witness :
    (resizePool 10 4 7).1 = min (max 1 (10 / 4)) 4 ∧
    (resizePool 10 4 7).2.2 = 7 - idealPoolSize 10 4 ∧
    (resizePool 10 4 7).2.1 = idealPoolSize 10 4 - 7 ∧
    queueScanWorkerStep WorkerEvent.closeSignal = WorkerStep.ret ∧
    (∀ a b, queueScanWorkerStep (WorkerEvent.work a b) ≠ WorkerStep.ret) :=
  resizePool_clamp 10 4 7 (by decide)

/-- C6: a `queueScanLoop` pass over `num` sampled channels with `numDirty`
dirty responses jumps straight back to the sampling label — skipping the
wait for the next `ScanInterval` tick — exactly when
`numDirty/num > QueueScanDirtyPercent`; hence with `DirtyPercent = 1.0`
the loop always waits for the next tick, and with `DirtyPercent = 0.0` it
repeats immediately exactly when at least one sampled channel was
dirty. -/
theorem queueScan_dirty_escalation (numDirty num : Nat) (dp : ℚ)
    (hn : 1 ≤ num) (hd : numDirty ≤ num) :
    (scanPassNext numDirty num dp = ScanNext.loopAgain ↔
       (numDirty : ℚ) / (num : ℚ) > dp) ∧
    scanPassNext numDirty num 1 = ScanNext.waitTick ∧
    (scanPassNext numDirty num 0 = ScanNext.loopAgain ↔ 1 ≤ numDirty) := by
  have hnum : (0 : ℚ) < (num : ℚ) := by
    have : 0 < num := hn
    exact_mod_cast this
  refine ⟨?_, ?_, ?_⟩
  · unfold scanPassNext
    split
    · rename_i hgt
      simp [hgt]
    · rename_i hgt
      simp [hgt]
  · unfold scanPassNext
    have hle : (numDirty : ℚ) / (num : ℚ) ≤ 1 := by
      rw [div_le_one hnum]
      exact_mod_cast hd
    simp [not_lt.mpr hle]
  · unfold scanPassNext
    constructor
    · intro h
      by_contra hc
      have h0 : numDirty = 0 := by omega
      rw [h0] at h
      simp at h
    · intro h1
      have hpos : (0 : ℚ) < (numDirty : ℚ) / (num : ℚ) := by
        apply div_pos _ hnum
        have : 0 < numDirty := h1
        exact_mod_cast this
      simp [hpos]

/-- Witness for C6 at concrete inputs: 2 dirty among 4 sampled. -/
theorem queueScan_dirty_escalation_witness :
    (scanPassNext 2 4 (1 / 4) = ScanNext.loopAgain ↔
       (2 : ℚ) / (4 : ℚ) > 1 / 4) ∧
    scanPassNext 2 4 1 = ScanNext.waitTick ∧
    (scanPassNext 2 4 0 = ScanNext.loopAgain ↔ 1 ≤ 2) :=
  queueScan_dirty_escalation 2 4 (1 / 4) (by decide) (by decide)

theorem generateIDLoop_sound (o : Nat → Except String Nat) :
    ∀ (fuel k : Nat) (h : List Char) (s : Nat),
      generateIDLoop o fuel k = some (h, s) →
      ∃ g, o (k + s) = Except.ok g ∧ h = guidHex g ∧
        ∀ j, j < s → ∃ e, o (k + j) = Except.error e := by
  intro fuel
  induction fuel with
  | zero =>
      intro k h s hp
      simp [generateIDLoop] at hp
  | succ fuel ih =>
      intro k h s hp
      unfold generateIDLoop at hp
      cases ho : o k with
      | ok g =>
          rw [ho] at hp
          simp only [Option.some.injEq, Prod.mk.injEq] at hp
          refine ⟨g, ?_, hp.1.symm, ?_⟩
          · rw [← hp.2]
            simpa using ho
          · intro j hj
            rw [← hp.2] at hj
            omega
      | error e =>
          rw [ho] at hp
          cases hrec : generateIDLoop o fuel (k + 1) with
          | none =>
              rw [hrec] at hp
              simp at hp
          | some r =>
              rw [hrec] at hp
              simp only [Option.map_some', Option.some.injEq, Prod.mk.injEq] at hp
              obtain ⟨g, hog, hgh, hfail⟩ := ih (k + 1) r.1 r.2 (by rw [hrec])
              refine ⟨g, ?_, ?_, ?_⟩
              · have hks : k + s = k + 1 + r.2 := by omega
                rw [hks]
                exact hog
              · rw [← hp.1]
                exact hgh
              · intro j hj
                cases j with
                | zero => exact ⟨e, by simpa using ho⟩
                | succ j =>
                    have hj2 : j < r.2 := by omega
                    obtain ⟨e2, he2⟩ := hfail j hj2
                    refine ⟨e2, ?_⟩
                    have : k + (j + 1) = k + 1 + j := by omega
                    rw [this]
                    exact he2

theorem generateIDLoop_first_success (o : Nat → Except String Nat) :
    ∀ (fuel i k g : Nat),
      o (k + i) = Except.ok g →
      (∀ j, j < i → ∃ e, o (k + j) = Except.error e) →
      i < fuel →
      generateIDLoop o fuel k = some (guidHex g, i) := by
  intro fuel
  induction fuel with
  | zero =>
      intro i k g _ _ hfuel
      omega
  | succ fuel ih =>
      intro i k g hok hfail hfuel
      unfold generateIDLoop
      cases i with
      | zero =>
          have hk : o k = Except.ok g := by simpa using hok
          rw [hk]
      | succ i =>
          obtain ⟨e, he⟩ := hfail 0 (by omega)
          have hk : o k = Except.error e := by simpa using he
          rw [hk]
          have hok2 : o (k + 1 + i) = Except.ok g := by
            have : k + 1 + i = k + (i + 1) := by omega
            rw [this]
            exact hok
          have hfail2 : ∀ j, j < i → ∃ e2, o (k + 1 + j) = Except.error e2 := by
            intro j hj
            obtain ⟨e2, he2⟩ := hfail (j + 1) (by omega)
            refine ⟨e2, ?_⟩
            have : k + 1 + j = k + (j + 1) := by omega
            rw [this]
            exact he2
          rw [ih i (k + 1) g hok2 hfail2 (by omega)]
          simp

/-- C8: whenever `GenerateID` returns, its result is the hex rendering of
a guid freshly produced by the factory — the successful attempt follows
exactly the attempts on which the factory erred, each error being
swallowed after a counted 1 ms sleep — and conversely, once the factory
first succeeds at attempt `i` (within the model's fuel), `GenerateID`
returns that guid's hex form after exactly `i` retries; the caller never
observes a factory failure. -/
theorem generateID_swallows_factory_errors (o : Nat → Except String Nat)
    (fuel : Nat) :
    (∀ h s, GenerateID o fuel = some (h, s) →
       ∃ g, o s = Except.ok g ∧ h = guidHex g ∧
         ∀ j, j < s → ∃ e, o j = Except.error e) ∧
    (∀ i g, o i = Except.ok g →
       (∀ j, j < i → ∃ e, o j = Except.error e) →
       i < fuel →
       GenerateID o fuel = some (guidHex g, i)) := by
  constructor
  · intro h s hp
    have hs := generateIDLoop_sound o fuel 0 h s hp
    simpa using hs
  · intro i g hok hfail hfuel
    have hs := generateIDLoop_first_success o fuel i 0 g (by simpa using hok)
      (fun j hj => by simpa using hfail j hj) hfuel
    simpa [GenerateID] using hs

/-- Witness for C8 at concrete inputs: a factory that errs once and then
yields guid 77; `GenerateID` answers the hex of 77 after one retry. -/
theorem generateID_swallows_factory_errors_witness :
    GenerateID (fun k => if k = 0 then Except.error "guid error"
                         else Except.ok 77) 5 = some (guidHex 77, 1) :=
  (generateID_swallows_factory_errors
      (fun k => if k = 0 then Except.error "guid error" else Except.ok 77) 5).2
    1 77 rfl
    (by
      intro j hj
      have hj0 : j = 0 := by omega
      subst hj0
      exact ⟨"guid error", rfl⟩)
    (by omega)

theorem lookupTopic_find?_none (m : List (String × Nat)) (name : String)
    (h : lookupTopic m name = none) :
    m.find? (fun p => p.1 == name) = none := by
  simpa [lookupTopic, Option.map_eq_none'] using h

theorem notMem_keys_of_lookupTopic_none (m : List (String × Nat))
    (name : String) (h : lookupTopic m name = none) :
    name ∉ m.map Prod.fst := by
  have hf := lookupTopic_find?_none m name h
  rw [List.find?_eq_none] at hf
  intro hmem
  obtain ⟨p, hp, hfst⟩ := List.mem_map.mp hmem
  have hne := hf p hp
  simp [hfst] at hne

theorem lookupTopic_append_self (m : List (String × Nat)) (name : String)
    (v : Nat) (h : lookupTopic m name = none) :
    lookupTopic (m ++ [(name, v)]) name = some v := by
  have hf := lookupTopic_find?_none m name h
  simp [lookupTopic, List.find?_append, hf, List.find?]

theorem keys_nodup_insert (m : List (String × Nat)) (name : String) (v : Nat)
    (h : lookupTopic m name = none)
    (hnodup : (m.map Prod.fst).Nodup) :
    (((m ++ [(name, v)]).map Prod.fst)).Nodup := by
  rw [List.map_append, List.nodup_append]
  refine ⟨hnodup, List.nodup_singleton _, ?_⟩
  intro a ha hb
  simp only [List.map_cons, List.map_nil, List.mem_singleton] at hb
  rw [hb] at ha
  exact notMem_keys_of_lookupTopic_none m name h ha

/-- C10: starting from a registry that maps each name to at most one
Topic, `GetTopic` — and the write-locked re-check section alone, whatever
happened between the read-locked miss and the lock acquisition — keeps
that invariant; the returned topic is exactly the one the registry then
holds for the name, a repeated call returns the same instance without
touching the registry, and whenever the re-check under the write lock
finds the name already present it returns that existing instance and
creates nothing. -/
theorem getTopic_no_duplicate (s : NsqdState) (name : String)
    (hnodup : (s.topicMap.map Prod.fst).Nodup) :
    ((GetTopic s name).1.topicMap.map Prod.fst).Nodup ∧
    ((getTopicLocked s name).1.topicMap.map Prod.fst).Nodup ∧
    lookupTopic (GetTopic s name).1.topicMap name = some (GetTopic s name).2 ∧
    GetTopic (GetTopic s name).1 name = ((GetTopic s name).1, (GetTopic s name).2) ∧
    (∀ tid, lookupTopic s.topicMap name = some tid →
       getTopicLocked s name = (s, tid)) := by
  cases hl : lookupTopic s.topicMap name with
  | some tid =>
      have hg : GetTopic s name = (s, tid) := by simp [GetTopic, hl]
      have hgl : getTopicLocked s name = (s, tid) := by simp [getTopicLocked, hl]
      rw [hg, hgl]
      refine ⟨hnodup, hnodup, hl, by simp [GetTopic, hl], ?_⟩
      intro tid2 htid2
      simp only [Option.some.injEq] at htid2
      rw [htid2]
  | none =>
      have hg : GetTopic s name = getTopicLocked s name := by simp [GetTopic, hl]
      have hgl : getTopicLocked s name =
          ({ topicMap := s.topicMap ++ [(name, s.nextTopicId)]
             nextTopicId := s.nextTopicId + 1 }, s.nextTopicId) := by
        simp [getTopicLocked, hl]
      have hnodup2 := keys_nodup_insert s.topicMap name s.nextTopicId hl hnodup
      have hlook := lookupTopic_append_self s.topicMap name s.nextTopicId hl
      rw [hg, hgl]
      refine ⟨hnodup2, hnodup2, hlook, ?_, ?_⟩
      · simp [GetTopic, hlook]
      · intro tid htid
        simp at htid

/-- Witness for C10 at concrete inputs: a registry holding only "a",
asked twice for "b". -/
theorem getTopic_no_duplicate_witness :
    ((GetTopic ⟨[("a", 0)], 1⟩ "b").1.topicMap.map Prod.fst).Nodup ∧
    ((getTopicLocked ⟨[("a", 0)], 1⟩ "b").1.topicMap.map Prod.fst).Nodup ∧
    lookupTopic (GetTopic ⟨[("a", 0)], 1⟩ "b").1.topicMap "b" =
      some (GetTopic ⟨[("a", 0)], 1⟩ "b").2 ∧
    GetTopic (GetTopic ⟨[("a", 0)], 1⟩ "b").1 "b" =
      ((GetTopic ⟨[("a", 0)], 1⟩ "b").1, (GetTopic ⟨[("a", 0)], 1⟩ "b").2) ∧
    (∀ tid, lookupTopic [("a", 0)] "b" = some tid →
       getTopicLocked ⟨[("a", 0)], 1⟩ "b" = (⟨[("a", 0)], 1⟩, tid)) :=
  getTopic_no_duplicate ⟨[("a", 0)], 1⟩ "b" (by simp)

end NSQ
